import Mathlib

/-! Layout overlay of cortile (`desktop/gui.go`)

A shallow embedding of the overlay renderer: colour lookup (`bgra`), geometry
scaling (`scale`), client selection and rectangle drawing (`drawClients`),
the label (`drawText`), the overlay window lifecycle (`showGraphics`) and the
entry point (`ShowLayout`).

Go's `int` is embedded as `Int`; `/` on `int` truncates toward zero and is
embedded as `Int.tdiv`.  No arithmetic of the overlay can leave the 64-bit
range for geometries of an X server (16-bit), so no wrap-around is modelled.
Drawing is embedded at the level of the calls made on the canvas: a canvas is
its rectangle, its fill colour and the ordered list of draws made on it.
-/

namespace Cortile

/-! ## Constants -/

/-- Size of text font (`fontSize`). -/
def fontSize : Int := 16

/-- Margin of text font (`fontMargin`). -/
def fontMargin : Int := 4

/-- Margin of layout rectangles (`rectMargin`). -/
def rectMargin : Int := 4

/-- Go's `math.MaxInt` on a 64-bit platform. -/
def maxInt : Int := 2 ^ 63 - 1

/-! ## Logging -/

/-- Severity of a logrus message emitted by the overlay. -/
inductive Level where
  | warn
  | error
  deriving DecidableEq, Repr

/-- One emitted log message. -/
structure LogEntry where
  level : Level
  msg : String
  deriving DecidableEq, Repr

/-! ## Colours -/

/-- The type `xgraphics.BGRA`: four 8-bit channels. -/
structure BGRA where
  B : Nat
  G : Nat
  R : Nat
  A : Nat
  deriving DecidableEq, Repr

/-- The zero value `xgraphics.BGRA{}`. -/
def BGRA.zero : BGRA := ⟨0, 0, 0, 0⟩

/-- Go's conversion `uint8(v)` of an `int`. -/
def toUint8 (v : Int) : Nat := (v % 256).toNat

/-- The part of `common.Config` the overlay reads. -/
structure Config where
  /-- Overlay duration in milliseconds (`TilingGui`). -/
  TilingGui : Int
  /-- The colour table `Colors` (`map[string][]int`), as an association list. -/
  Colors : List (String × List Int)
  deriving DecidableEq, Repr

/-- The map read `common.Config.Colors[name]`: a missing key yields the nil slice. -/
def Config.color (cfg : Config) (name : String) : List Int :=
  (cfg.Colors.lookup name).getD []

/-- The function `bgra`: the colour of a name and the warnings it logs. -/
def bgra (cfg : Config) (name : String) : BGRA × List LogEntry :=
  let rgba := cfg.color name
  if rgba.length != 4 then
    (BGRA.zero, [⟨Level.warn, "Error obtaining color for " ++ name⟩])
  else
    ({ R := toUint8 (rgba.getD 0 0), G := toUint8 (rgba.getD 1 0),
       B := toUint8 (rgba.getD 2 0), A := toUint8 (rgba.getD 3 0) }, [])

/-! ## Geometry -/

/-- The function `scale`: every component divided by 10, truncating. -/
def scale (x y w h : Int) : Int × Int × Int × Int :=
  let s : Int := 10
  (x.tdiv s, y.tdiv s, w.tdiv s, h.tdiv s)

/-- The type `image.Point`. -/
structure Point where
  X : Int
  Y : Int
  deriving DecidableEq, Repr

/-- The type `image.Rectangle`. -/
structure Rectangle where
  Min : Point
  Max : Point
  deriving DecidableEq, Repr

/-- The function `image.Rect`: the corners are swapped where needed so that
`Min` is not beyond `Max`. -/
def imageRect (x0 y0 x1 y1 : Int) : Rectangle :=
  let (x0, x1) := if x0 > x1 then (x1, x0) else (x0, x1)
  let (y0, y1) := if y0 > y1 then (y1, y0) else (y0, y1)
  ⟨⟨x0, y0⟩, ⟨x1, y1⟩⟩

/-- The method `Rectangle.Dx`. -/
def Rectangle.Dx (r : Rectangle) : Int := r.Max.X - r.Min.X

/-- The method `Rectangle.Dy`. -/
def Rectangle.Dy (r : Rectangle) : Int := r.Max.Y - r.Min.Y

/-! ## The collaborators: clients, the manager, the desktop -/

/-- A managed window (`store.Client`), reduced to what the overlay reads. -/
structure Client where
  /-- The native window identifier `c.Win.Id`. -/
  winId : Nat
  /-- The result `(x, y, w, h)` of `c.OuterGeometry()`. -/
  outer : Int × Int × Int × Int
  /-- The state flags `c.Latest.States`. -/
  States : List String
  deriving DecidableEq, Repr

/-- The argument `store.Windows` of `Manager.Visible`. -/
structure Windows where
  Clients : List Client
  Allowed : Int

/-- The manager (`store.Manager`) as the overlay consumes it.  Its methods are
defined outside `desktop/gui.go` and are taken as they are. -/
structure Manager where
  /-- The method `Clients(flag)`. -/
  Clients : Bool → List Client
  /-- The method `Visible(windows)`. -/
  Visible : Windows → List Client
  /-- The method `IsMaster(c)`. -/
  IsMaster : Client → Bool

/-- The font returned by `truetype.Parse`, reduced to the text width that
`xgraphics.Extents` measures with it at `fontSize`. -/
structure Font where
  extentsW : String → Int

/-- What the overlay reads from its surroundings. -/
structure Env where
  /-- The global `common.Config`. -/
  cfg : Config
  /-- The result `(x, y, w, h)` of `common.DesktopDimensions()`. -/
  desktop : Int × Int × Int × Int
  /-- The lookup `xgraphics.FindIcon(X, id, w, h)`: whether an icon is found. -/
  findIcon : Nat → Int → Int → Bool
  /-- The result of `truetype.Parse(goregular.TTF)`. -/
  parseFont : Except String Font

/-! ## The canvas -/

/-- The source image handed to `draw.Draw`. -/
inductive Source where
  /-- The uniform image `&image.Uniform{color}`. -/
  | uniform (color : BGRA)
  /-- The icon found for a window at the requested size. -/
  | icon (win : Nat) (size : Int)
  deriving DecidableEq, Repr

/-- One draw made on the canvas. -/
inductive DrawOp where
  /-- A call of `drawImage`: `draw.Draw` of `src` into `rect`, followed by
  `BlendBgColor` with `blend`. -/
  | image (rect : Rectangle) (src : Source) (blend : BGRA)
  /-- A call of `cv.Text(x, y, color, fontSize, font, txt)`. -/
  | text (x y : Int) (color : BGRA) (txt : String)
  deriving DecidableEq, Repr

/-- The canvas `*xgraphics.Image`: its bounds, the colour it was filled with
and the draws made on it, oldest first. -/
structure Canvas where
  Rect : Rectangle
  fill : BGRA
  ops : List DrawOp
  deriving DecidableEq, Repr

/-- The function `drawImage`. -/
def drawImage (cv : Canvas) (img : Source) (color : BGRA) (x0 y0 x1 y1 : Int) : Canvas :=
  { cv with ops := cv.ops ++ [DrawOp.image (imageRect x0 y0 x1 y1) img color] }

/-- The function `drawText`. -/
def drawText (env : Env) (cv : Canvas) (txt : String) (color : BGRA) (x y : Int) :
    Canvas × List LogEntry :=
  match env.parseFont with
  | .error err => (cv, [⟨Level.error, err⟩])
  | .ok font =>
    let w := font.extentsW txt
    ({ cv with ops := cv.ops ++ [DrawOp.text (x - w.tdiv 2) y color txt] }, [])

/-! ## Client selection and drawing -/

/-- The inner loop of the selection in `drawClients`, over the state flags of
one client: at the first flag that meets the test the client set is
replaced and the loop is left. -/
def scanStates (mg : Manager) (layout : String) : List String → List Client → List Client
  | [], clients => clients
  | state :: rest, clients =>
    if state == "_NET_WM_STATE_FULLSCREEN" || layout == "fullscreen" then
      mg.Visible { Clients := mg.Clients true, Allowed := 1 }
    else
      scanStates mg layout rest clients

/-- The outer loop of the selection in `drawClients`, over the clients the
`range` was started with. -/
def scanClients (mg : Manager) (layout : String) : List Client → List Client → List Client
  | [], clients => clients
  | c :: cs, clients => scanClients mg layout cs (scanStates mg layout c.States clients)

/-- The client set `drawClients` holds when its selection loop is done. -/
def selectClients (mg : Manager) (layout : String) : List Client :=
  let clients := mg.Clients false
  scanClients mg layout clients clients

/-- The default rectangle of `drawClients`, drawn when there is no client. -/
def drawDefault (env : Env) (cv : Canvas) : Canvas × List LogEntry :=
  let (_, _, dw, dh) := env.desktop
  let (x, y, width, height) := scale 0 0 dw dh
  let (color, l) := bgra env.cfg "gui_client_slave"
  (drawImage cv (Source.uniform color) color (x + rectMargin) (y + rectMargin) (x + width)
    (y + height), l)

/-- The body of the drawing loop of `drawClients` for one client. -/
def drawClient (env : Env) (mg : Manager) (layout : String) (cv : Canvas) (c : Client) :
    Canvas × List LogEntry :=
  let (cx, cy, cw, ch) := c.outer
  let (dx, dy, _, _) := env.desktop
  let (x, y, width, height) := scale (cx - dx) (cy - dy) cw ch
  let iconSize := maxInt
  let iconSize := if width < iconSize then width else iconSize
  let iconSize := if height < iconSize then height else iconSize
  let iconSize := iconSize.tdiv 2
  let (color, l) := bgra env.cfg "gui_client_slave"
  let (color, l) :=
    if mg.IsMaster c || layout == "fullscreen" then
      let (m, lm) := bgra env.cfg "gui_client_master"
      (m, l ++ lm)
    else (color, l)
  let cv := drawImage cv (Source.uniform color) color (x + rectMargin) (y + rectMargin)
    (x + width) (y + height)
  let cv :=
    if env.findIcon c.winId iconSize iconSize then
      drawImage cv (Source.icon c.winId iconSize) color
        (x + rectMargin.tdiv 2 + width.tdiv 2 - iconSize.tdiv 2)
        (y + rectMargin.tdiv 2 + height.tdiv 2 - iconSize.tdiv 2) (x + width) (y + height)
    else cv
  (cv, l)

/-- The drawing loop of `drawClients` over the selected clients. -/
def drawLoop (env : Env) (mg : Manager) (layout : String) :
    List Client → Canvas → List LogEntry → Canvas × List LogEntry
  | [], cv, l => (cv, l)
  | c :: cs, cv, l =>
    let (cv, lc) := drawClient env mg layout cv c
    drawLoop env mg layout cs cv (l ++ lc)

/-- The function `drawClients`. -/
def drawClients (env : Env) (cv : Canvas) (mg : Manager) (layout : String) :
    Canvas × List LogEntry :=
  let clients := selectClients mg layout
  if clients.length == 0 then
    drawDefault env cv
  else
    drawLoop env mg layout clients cv []

/-! ## The overlay window and the entry point -/

/-- The active layout of a workspace: its manager and its name. -/
structure Layout where
  manager : Manager
  name : String

/-- The workspace handle, reduced to `ws.ActiveLayout()`. -/
structure Workspace where
  ActiveLayout : Layout

/-- The closure `ShowLayout` hands to `time.AfterFunc`: the variables it
captures. -/
structure Deferred where
  cv : Canvas
  mg : Manager
  name : String

/-- The state the overlay acts on.  Overlay windows are named by the
identifier `xwindow.Generate` gave them; identifiers are handed out in
increasing order and are not reused. -/
structure World where
  /-- The package variable `gui`: `none` is `nil`. -/
  gui : Option Nat
  /-- The overlay windows that are mapped and not destroyed. -/
  mapped : List Nat
  /-- The identifier the next generated window gets. -/
  nextId : Nat
  /-- The windows with an auto-dismiss timer that has not fired yet. -/
  timers : List Nat
  /-- The deferred renders that have not run yet. -/
  deferred : List Deferred
  /-- The number of canvases allocated through `xgraphics.New`. -/
  canvases : Nat
  /-- The log messages emitted, oldest first. -/
  log : List LogEntry

/-- The state at start: `gui` is nil and there is no overlay window. -/
def World.init : World :=
  { gui := none, mapped := [], nextId := 0, timers := [], deferred := [], canvases := 0,
    log := [] }

/-- The method `Destroy` of an overlay window. -/
def destroy (win : Nat) (mapped : List Nat) : List Nat :=
  mapped.filter (fun v => v != win)

/-- The function `showGraphics`.  The argument `gen` is the outcome of
`xwindow.Generate`.  The properties set on the new window (name, states, size
hints, decorations) leave the state untouched. -/
def showGraphics (_img : Canvas) (duration : Int) (gen : Except String Unit) (w : World) :
    World × Option Nat :=
  match gen with
  | .error err => ({ w with log := w.log ++ [⟨Level.error, err⟩] }, none)
  | .ok _ =>
    let win := w.nextId
    let mapped := w.mapped ++ [win]
    let mapped :=
      match w.gui with
      | some g => destroy g mapped
      | none => mapped
    let timers := if duration > 0 then w.timers ++ [win] else w.timers
    ({ w with gui := some win, mapped := mapped, nextId := win + 1, timers := timers }, some win)

/-- The auto-dismiss timer of window `win` fires: the scheduled `win.Destroy`
runs.  Nothing happens when no such timer is pending. -/
def timerFire (win : Nat) (w : World) : World :=
  if win ∈ w.timers then
    { w with timers := w.timers.erase win, mapped := destroy win w.mapped }
  else w

/-- The function `ShowLayout`, up to the scheduling of the deferred render. -/
def ShowLayout (env : Env) (ws : Workspace) (w : World) : World :=
  if env.cfg.TilingGui <= 0 then w
  else
    let al := ws.ActiveLayout
    let mg := al.manager
    let name := al.name
    let (dx, dy, dw, dh) := env.desktop
    let (_, _, width, height) := scale dx dy dw dh
    let (bg, l) := bgra env.cfg "gui_background"
    let cv : Canvas :=
      { Rect := imageRect 0 0 (width + rectMargin)
          (height + fontSize + 2 * fontMargin + rectMargin),
        fill := bg, ops := [] }
    { w with deferred := w.deferred ++ [⟨cv, mg, name⟩], canvases := w.canvases + 1,
             log := w.log ++ l }

/-- The drawing part of the deferred render of `ShowLayout`: the client
rectangles, then the layout name. -/
def render (env : Env) (d : Deferred) : Canvas × List LogEntry :=
  let (cv, l1) := drawClients env d.cv d.mg d.name
  let (color, l2) := bgra env.cfg "gui_text"
  let (cv, l3) := drawText env cv d.name color (cv.Rect.Dx.tdiv 2)
    (cv.Rect.Dy - fontSize - 2 * fontMargin)
  (cv, l1 ++ l2 ++ l3)

/-- The deferred render of `ShowLayout` runs: draw, then show the canvas. -/
def runDeferred (env : Env) (d : Deferred) (gen : Except String Unit) (w : World) : World :=
  let (cv, l) := render env d
  (showGraphics cv env.cfg.TilingGui gen { w with log := w.log ++ l }).1

/-- A step of the overlay window lifecycle. -/
inductive Step where
  /-- A call of `showGraphics`; it fails when `gen` is an error. -/
  | showWindow (img : Canvas) (duration : Int) (gen : Except String Unit)
  /-- The auto-dismiss timer of a window fires. -/
  | timer (win : Nat)

/-- The effect of one step. -/
def step (w : World) : Step → World
  | .showWindow img duration gen => (showGraphics img duration gen w).1
  | .timer win => timerFire win w

/-- The state after a sequence of steps. -/
def run (w : World) (steps : List Step) : World :=
  steps.foldl step w

/-! ## Observations on a canvas -/

/-- The filled rectangles among the draws, each with its colour, in order. -/
def uniformRects (ops : List DrawOp) : List (Rectangle × BGRA) :=
  ops.filterMap fun op =>
    match op with
    | .image r (.uniform c) _ => some (r, c)
    | _ => none

/-- The icons among the draws, in order. -/
def iconOps (ops : List DrawOp) : List DrawOp :=
  ops.filter fun op =>
    match op with
    | .image _ (.icon _ _) _ => true
    | _ => false

/-- The rectangle that the drawing loop of `drawClients` hands to `drawImage`
for a client: corners (x+rectMargin, y+rectMargin) and (x+width, y+height) of
the scaled geometry relative to the desktop origin. -/
def clientRect (desktop : Int × Int × Int × Int) (c : Client) : Rectangle :=
  let (cx, cy, cw, ch) := c.outer
  let (dx, dy, _, _) := desktop
  let (x, y, width, height) := scale (cx - dx) (cy - dy) cw ch
  imageRect (x + rectMargin) (y + rectMargin) (x + width) (y + height)

/-- The canvases that the pending deferred renders of a state draw. -/
def rendered (env : Env) (w : World) : List Canvas :=
  w.deferred.map fun d => (render env d).1

/-! ## The invariant of the overlay window -/

/-- What holds of the overlay in every state that can be reached: a mapped
window is the one `gui` refers to, at most one window is mapped, `gui` refers
to the window generated last, and without `gui` no window was generated. -/
structure Singleton (s : World) : Prop where
  mapped_gui : ∀ v ∈ s.mapped, s.gui = some v
  at_most_one : s.mapped.length ≤ 1
  gui_last : ∀ g, s.gui = some g → g + 1 = s.nextId
  gui_nil : s.gui = none → s.nextId = 0

/-! ## Example data -/

/-- A colour table with three well-formed entries and a malformed one. -/
def exampleConfig : Config :=
  { TilingGui := 1000,
    Colors := [("gui_background", [30, 30, 30, 255]), ("gui_text", [255, 255, 255, 255]),
      ("gui_client_master", [255, 0, 0, 255]), ("gui_client_slave", [0, 0, 255, 128]),
      ("gui_broken", [1, 2, 3])] }

/-- A font whose text width is eight pixels a character. -/
def exampleFont : Font := ⟨fun txt => 8 * txt.length⟩

/-- A desktop of 1000 by 800 at the origin, without icons. -/
def exampleEnv : Env :=
  { cfg := exampleConfig, desktop := (0, 0, 1000, 800), findIcon := fun _ _ _ => false,
    parseFont := .ok exampleFont }

/-- The master window of the two-column scenario: the left half of the desktop. -/
def leftClient : Client := { winId := 1, outer := (0, 0, 500, 800), States := [] }

/-- The slave window of the two-column scenario: the right half of the desktop. -/
def rightClient : Client := { winId := 2, outer := (500, 0, 500, 800), States := [] }

/-- A manager of the two windows: the left one is the master, and the visible
subset is the first `Allowed` windows. -/
def exampleManager : Manager :=
  { Clients := fun _ => [leftClient, rightClient],
    Visible := fun ws => ws.Clients.take ws.Allowed.toNat,
    IsMaster := fun c => c == leftClient }

/-- A manager without windows. -/
def emptyManager : Manager :=
  { Clients := fun _ => [], Visible := fun ws => ws.Clients.take ws.Allowed.toNat,
    IsMaster := fun _ => false }

/-- The workspace of the two-column scenario. -/
def exampleWorkspace : Workspace := ⟨⟨exampleManager, "two-column"⟩⟩

/-- The example surroundings with the overlay switched off. -/
def disabledEnv : Env := { exampleEnv with cfg := { exampleConfig with TilingGui := 0 } }

/-- The canvas of the example desktop before anything is drawn on it. -/
def exampleCanvas : Canvas :=
  { Rect := ⟨⟨0, 0⟩, ⟨104, 108⟩⟩, fill := { R := 30, G := 30, B := 30, A := 255 }, ops := [] }

/-! ## Colour lookup -/

/-- Conversion to `uint8` keeps a value that is in range. -/
theorem toUint8_of_range (v : Int) (h0 : 0 ≤ v) (h1 : v ≤ 255) : (toUint8 v : Int) = v := by
  unfold toUint8
  omega

/-- C9: for every colour table and name, an entry of exactly four integers in
[0,255] gives the colour whose R, G, B, A channels are entries 0, 1, 2, 3 and
no warning; an entry of any other length (a missing name has length 0) gives
the all-zero colour and exactly one warning. -/
theorem bgra_spec (cfg : Config) (name : String) :
    (∀ r g b a : Int, cfg.color name = [r, g, b, a] →
      (0 ≤ r ∧ r ≤ 255) → (0 ≤ g ∧ g ≤ 255) → (0 ≤ b ∧ b ≤ 255) → (0 ≤ a ∧ a ≤ 255) →
      ((bgra cfg name).1.R : Int) = r ∧ ((bgra cfg name).1.G : Int) = g ∧
      ((bgra cfg name).1.B : Int) = b ∧ ((bgra cfg name).1.A : Int) = a ∧
      (bgra cfg name).2 = []) ∧
    ((cfg.color name).length ≠ 4 →
      bgra cfg name = (BGRA.zero, [⟨Level.warn, "Error obtaining color for " ++ name⟩])) ∧
    (cfg.Colors.lookup name = none → (cfg.color name).length = 0 ∧
      bgra cfg name = (BGRA.zero, [⟨Level.warn, "Error obtaining color for " ++ name⟩])) := by
  refine ⟨?_, ?_, ?_⟩
  · intro r g b a h hr hg hb ha
    simp [bgra, h, toUint8_of_range, hr, hg, hb, ha]
  · intro h
    simp [bgra, h]
  · intro h
    simp [bgra, Config.color, h]

/-- The lookup at work on the example table: a well-formed entry, a missing
name and an entry of three integers. -/
theorem bgra_spec_witness :
    (bgra exampleConfig "gui_client_slave").1 = { R := 0, G := 0, B := 255, A := 128 } ∧
    (bgra exampleConfig "gui_client_slave").2 = [] ∧
    bgra exampleConfig "gui_missing"
      = (BGRA.zero, [⟨Level.warn, "Error obtaining color for gui_missing"⟩]) ∧
    bgra exampleConfig "gui_broken"
      = (BGRA.zero, [⟨Level.warn, "Error obtaining color for gui_broken"⟩]) := by
  have h := (bgra_spec exampleConfig "gui_client_slave").1 0 0 255 128 (by decide)
    (by decide) (by decide) (by decide) (by decide)
  have hm := (bgra_spec exampleConfig "gui_missing").2.2 (by decide)
  have hb := (bgra_spec exampleConfig "gui_broken").2.1 (by decide)
  refine ⟨?_, h.2.2.2.2, hm.2, hb⟩
  cases hc : (bgra exampleConfig "gui_client_slave").1 with
  | mk B G R A =>
    rw [hc] at h
    simp only [BGRA.mk.injEq]
    have h1 := h.1
    have h2 := h.2.1
    have h3 := h.2.2.1
    have h4 := h.2.2.2.1
    simp only at h1 h2 h3 h4
    omega

/-! ## The canvas of `ShowLayout` -/

/-- The function `image.Rect` keeps corners that are already in order. -/
theorem imageRect_of_le (x0 y0 x1 y1 : Int) (hx : x0 ≤ x1) (hy : y0 ≤ y1) :
    imageRect x0 y0 x1 y1 = ⟨⟨x0, y0⟩, ⟨x1, y1⟩⟩ := by
  unfold imageRect
  rw [if_neg (by omega), if_neg (by omega)]

/-- C2: for every desktop (dx, dy, dw, dh), the one canvas `ShowLayout`
allocates is `image.Rect(0, 0, dw/10 + 4, dh/10 + fontSize + 2*fontMargin + 4)`
with truncating division and fontSize = 16, fontMargin = 4, whatever the
origin (dx, dy) is; for a desktop size (dw, dh ≥ 0) its width is dw/10 + 4 and
its height is dh/10 + 16 + 2*4 + 4. -/
theorem ShowLayout_canvas (env : Env) (ws : Workspace) (w : World) (dx dy dw dh : Int)
    (hon : 0 < env.cfg.TilingGui) (hd : env.desktop = (dx, dy, dw, dh)) :
    ∃ d : Deferred,
      (ShowLayout env ws w).deferred = w.deferred ++ [d] ∧
      (ShowLayout env ws w).canvases = w.canvases + 1 ∧
      d.cv.Rect = imageRect 0 0 (dw.tdiv 10 + 4) (dh.tdiv 10 + fontSize + 2 * fontMargin + 4) ∧
      (0 ≤ dw → 0 ≤ dh →
        d.cv.Rect.Min = ⟨0, 0⟩ ∧
        d.cv.Rect.Dx = dw.tdiv 10 + 4 ∧
        d.cv.Rect.Dy = dh.tdiv 10 + 16 + 2 * 4 + 4) := by
  refine ⟨⟨⟨imageRect 0 0 (dw.tdiv 10 + rectMargin)
    (dh.tdiv 10 + fontSize + 2 * fontMargin + rectMargin),
    (bgra env.cfg "gui_background").1, []⟩,
    ws.ActiveLayout.manager, ws.ActiveLayout.name⟩, ?_, ?_, ?_, ?_⟩
  · simp only [ShowLayout, if_neg (not_le.mpr hon), hd, scale]
  · simp only [ShowLayout, if_neg (not_le.mpr hon), hd, scale]
  · simp only [rectMargin]
  · intro hw hh
    have h1 : 0 ≤ dw.tdiv 10 := Int.tdiv_nonneg hw (by decide)
    have h2 : 0 ≤ dh.tdiv 10 := Int.tdiv_nonneg hh (by decide)
    simp only [rectMargin, fontSize, fontMargin]
    rw [imageRect_of_le _ _ _ _ (by omega) (by omega)]
    refine ⟨rfl, ?_, ?_⟩
    · simp only [Rectangle.Dx]
      omega
    · simp only [Rectangle.Dy]
      omega

/-- The canvas of the example desktop of 1000 by 800 is 104 wide and 108 high. -/
theorem ShowLayout_canvas_witness :
    ∃ d : Deferred,
      (ShowLayout exampleEnv exampleWorkspace World.init).deferred = [] ++ [d] ∧
      d.cv.Rect.Min = ⟨0, 0⟩ ∧ d.cv.Rect.Dx = 104 ∧ d.cv.Rect.Dy = 108 := by
  obtain ⟨d, h1, _, _, h4⟩ :=
    ShowLayout_canvas exampleEnv exampleWorkspace World.init 0 0 1000 800 (by decide) rfl
  have h := h4 (by decide) (by decide)
  exact ⟨d, h1, h.1, by rw [h.2.1]; decide, by rw [h.2.2]; decide⟩

/-! ## The switched-off overlay -/

/-- C10: with an overlay duration `TilingGui` ≤ 0, `ShowLayout` leaves the
state as it is for every workspace: no canvas is allocated, no window
created, no deferred render scheduled, nothing logged, and `gui` is kept. -/
theorem ShowLayout_disabled (env : Env) (ws : Workspace) (w : World)
    (h : env.cfg.TilingGui ≤ 0) :
    ShowLayout env ws w = w ∧
    (ShowLayout env ws w).canvases = w.canvases ∧
    (ShowLayout env ws w).nextId = w.nextId ∧
    (ShowLayout env ws w).mapped = w.mapped ∧
    (ShowLayout env ws w).deferred.length = w.deferred.length ∧
    (ShowLayout env ws w).log = w.log ∧
    (ShowLayout env ws w).gui = w.gui := by
  have h0 : ShowLayout env ws w = w := by
    unfold ShowLayout
    rw [if_pos h]
  rw [h0]
  exact ⟨rfl, rfl, rfl, rfl, rfl, rfl, rfl⟩

/-- With a duration of 0 the example workspace leaves the starting state as it
is, while the duration of 1000 allocates a canvas and schedules a render. -/
theorem ShowLayout_disabled_witness :
    disabledEnv.cfg.TilingGui ≤ 0 ∧
    (ShowLayout disabledEnv exampleWorkspace World.init).canvases = 0 ∧
    (ShowLayout disabledEnv exampleWorkspace World.init).deferred.length = 0 ∧
    (ShowLayout disabledEnv exampleWorkspace World.init).log = [] ∧
    (ShowLayout disabledEnv exampleWorkspace World.init).gui = none ∧
    (ShowLayout exampleEnv exampleWorkspace World.init).canvases = 1 ∧
    (ShowLayout exampleEnv exampleWorkspace World.init).deferred.length = 1 := by
  have h := ShowLayout_disabled disabledEnv exampleWorkspace World.init (by decide)
  exact ⟨by decide, h.2.1, h.2.2.2.2.1, h.2.2.2.2.2.1, h.2.2.2.2.2.2, by decide, by decide⟩

/-! ## Drawing the clients -/

/-- Truncating division by ten of a non-negative integer is the usual one. -/
theorem tdiv_ten (a : Int) (h : 0 ≤ a) : a.tdiv 10 = a / 10 :=
  Int.tdiv_eq_ediv h (by decide)

/-- One pass of the drawing loop appends the rectangle of the client, in the
colour of its role, and after it at most the icon. -/
theorem drawClient_ops (env : Env) (mg : Manager) (layout : String) (cv : Canvas) (c : Client) :
    ∃ rest : List DrawOp,
      (drawClient env mg layout cv c).1.ops
        = cv.ops ++ DrawOp.image (clientRect env.desktop c)
            (Source.uniform (bgra env.cfg (if mg.IsMaster c = true ∨ layout = "fullscreen"
              then "gui_client_master" else "gui_client_slave")).1)
            (bgra env.cfg (if mg.IsMaster c = true ∨ layout = "fullscreen"
              then "gui_client_master" else "gui_client_slave")).1 :: rest ∧
      uniformRects rest = [] ∧ iconOps rest = rest ∧ rest.length ≤ 1 := by
  have key : ∀ (b : Bool) (A I : DrawOp) (hI : iconOps [I] = [I]) (hU : uniformRects [I] = []),
      ∃ rest : List DrawOp,
        (if b = true then cv.ops ++ [A] ++ [I] else cv.ops ++ [A]) = cv.ops ++ A :: rest ∧
        uniformRects rest = [] ∧ iconOps rest = rest ∧ rest.length ≤ 1 := by
    intro b A I hI hU
    cases b
    · exact ⟨[], by simp, rfl, rfl, Nat.zero_le 1⟩
    · exact ⟨[I], by simp, hU, hI, Nat.le_refl 1⟩
  by_cases hm : mg.IsMaster c = true ∨ layout = "fullscreen"
  · have hb : (mg.IsMaster c || layout == "fullscreen") = true := by simpa using hm
    simp only [drawClient, drawImage, clientRect, hb, if_true, if_pos hm, apply_ite Canvas.ops]
    exact key _ _ _ rfl rfl
  · have hb : (mg.IsMaster c || layout == "fullscreen") = false := by simpa using hm
    simp only [drawClient, drawImage, clientRect, hb, if_neg hm, apply_ite Canvas.ops]
    exact key _ _ _ rfl rfl

/-- The filled rectangles of two runs of draws, one after the other. -/
theorem uniformRects_append (xs ys : List DrawOp) :
    uniformRects (xs ++ ys) = uniformRects xs ++ uniformRects ys := by
  simp [uniformRects, List.filterMap_append]

/-- The icons of two runs of draws, one after the other. -/
theorem iconOps_append (xs ys : List DrawOp) : iconOps (xs ++ ys) = iconOps xs ++ iconOps ys := by
  simp [iconOps, List.filter_append]

/-- The drawing loop appends one filled rectangle a client, in the order of
the clients, each in the colour of the role of its client. -/
theorem drawLoop_uniformRects (env : Env) (mg : Manager) (layout : String)
    (cs : List Client) (cv : Canvas) (l : List LogEntry) :
    uniformRects (drawLoop env mg layout cs cv l).1.ops
      = uniformRects cv.ops ++ cs.map fun c =>
          (clientRect env.desktop c,
            (bgra env.cfg (if mg.IsMaster c = true ∨ layout = "fullscreen"
              then "gui_client_master" else "gui_client_slave")).1) := by
  induction cs generalizing cv l with
  | nil => simp [drawLoop]
  | cons c cs ih =>
    obtain ⟨rest, hops, hu, _, _⟩ := drawClient_ops env mg layout cv c
    simp only [drawLoop]
    rw [ih, hops, uniformRects_append]
    have hcons : ∀ (op : DrawOp) (tl : List DrawOp), op :: tl = [op] ++ tl := fun _ _ => rfl
    rw [hcons _ rest, uniformRects_append, hu]
    simp [uniformRects]

/-- C5: every client `drawClients` draws gets one filled rectangle, and the
colour of that rectangle is the one named gui_client_master exactly when
`IsMaster` holds for the client or the layout name is "fullscreen"; in every
other case it is the one named gui_client_slave. -/
theorem drawClients_roles (env : Env) (cv : Canvas) (mg : Manager) (layout : String)
    (hne : selectClients mg layout ≠ []) :
    uniformRects (drawClients env cv mg layout).1.ops
      = uniformRects cv.ops ++ (selectClients mg layout).map fun c =>
          (clientRect env.desktop c,
            (bgra env.cfg (if mg.IsMaster c = true ∨ layout = "fullscreen"
              then "gui_client_master" else "gui_client_slave")).1) := by
  have hlen : ((selectClients mg layout).length == 0) = false := by
    cases hs : selectClients mg layout with
    | nil => exact absurd hs hne
    | cons c cs => rfl
  simp only [drawClients, hlen]
  exact drawLoop_uniformRects env mg layout _ cv []

/-- In the two-column example the left window is drawn in the master colour
and the right one in the slave colour; under the layout name "fullscreen"
both are drawn in the master colour. -/
theorem drawClients_roles_witness :
    uniformRects (drawClients exampleEnv ⟨⟨⟨0, 0⟩, ⟨104, 108⟩⟩, BGRA.zero, []⟩ exampleManager
      "two-column").1.ops
      = [(⟨⟨4, 4⟩, ⟨50, 80⟩⟩, { R := 255, G := 0, B := 0, A := 255 }),
         (⟨⟨54, 4⟩, ⟨100, 80⟩⟩, { R := 0, G := 0, B := 255, A := 128 })] ∧
    uniformRects (drawClients exampleEnv ⟨⟨⟨0, 0⟩, ⟨104, 108⟩⟩, BGRA.zero, []⟩ exampleManager
      "fullscreen").1.ops
      = [(⟨⟨4, 4⟩, ⟨50, 80⟩⟩, { R := 255, G := 0, B := 0, A := 255 }),
         (⟨⟨54, 4⟩, ⟨100, 80⟩⟩, { R := 255, G := 0, B := 0, A := 255 })] := by
  constructor
  · rw [drawClients_roles exampleEnv _ exampleManager "two-column" (by decide)]
    decide
  · rw [drawClients_roles exampleEnv _ exampleManager "fullscreen" (by decide)]
    decide

/-! ## Scaling and clipping -/

/-- C4: for a desktop (dx, dy, dw, dh) with dw, dh ≥ 0 and a client whose outer
geometry (cx, cy, cw, ch), cw, ch ≥ 0, lies on the desktop,
`scale(cx-dx, cy-dy, cw, ch)` is ((cx-dx)/10, (cy-dy)/10, cw/10, ch/10) with
four non-negative results, the rectangle drawn for the client has the corners
(x+rectMargin, y+rectMargin) and (x+width, y+height), and both corners lie in
[0, dw/10 + rectMargin] x [0, dh/10 + fontSize + 2*fontMargin + rectMargin],
the bounds of the canvas. -/
theorem client_rectangle_unclipped (env : Env) (mg : Manager) (layout : String) (cv : Canvas)
    (c : Client) (dx dy dw dh cx cy cw ch : Int)
    (hd : env.desktop = (dx, dy, dw, dh)) (hc : c.outer = (cx, cy, cw, ch))
    (hdw : 0 ≤ dw) (hdh : 0 ≤ dh) (hcw : 0 ≤ cw) (hch : 0 ≤ ch)
    (hx : dx ≤ cx) (hy : dy ≤ cy) (hxw : cx + cw ≤ dx + dw) (hyh : cy + ch ≤ dy + dh) :
    scale (cx - dx) (cy - dy) cw ch = ((cx - dx) / 10, (cy - dy) / 10, cw / 10, ch / 10) ∧
    (0 ≤ (cx - dx) / 10 ∧ 0 ≤ (cy - dy) / 10 ∧ 0 ≤ cw / 10 ∧ 0 ≤ ch / 10) ∧
    (∃ (color : BGRA) (rest : List DrawOp),
      (drawClient env mg layout cv c).1.ops
        = cv.ops ++ DrawOp.image
            (imageRect ((cx - dx) / 10 + rectMargin) ((cy - dy) / 10 + rectMargin)
              ((cx - dx) / 10 + cw / 10) ((cy - dy) / 10 + ch / 10))
            (Source.uniform color) color :: rest) ∧
    (0 ≤ (cx - dx) / 10 + rectMargin ∧ (cx - dx) / 10 + rectMargin ≤ dw.tdiv 10 + rectMargin ∧
      0 ≤ (cy - dy) / 10 + rectMargin ∧
      (cy - dy) / 10 + rectMargin ≤ dh.tdiv 10 + fontSize + 2 * fontMargin + rectMargin) ∧
    (0 ≤ (cx - dx) / 10 + cw / 10 ∧ (cx - dx) / 10 + cw / 10 ≤ dw.tdiv 10 + rectMargin ∧
      0 ≤ (cy - dy) / 10 + ch / 10 ∧
      (cy - dy) / 10 + ch / 10 ≤ dh.tdiv 10 + fontSize + 2 * fontMargin + rectMargin) ∧
    ((imageRect 0 0 (dw.tdiv 10 + rectMargin)
        (dh.tdiv 10 + fontSize + 2 * fontMargin + rectMargin)).Min.X
        ≤ (clientRect env.desktop c).Min.X ∧
      (imageRect 0 0 (dw.tdiv 10 + rectMargin)
        (dh.tdiv 10 + fontSize + 2 * fontMargin + rectMargin)).Min.Y
        ≤ (clientRect env.desktop c).Min.Y ∧
      (clientRect env.desktop c).Max.X
        ≤ (imageRect 0 0 (dw.tdiv 10 + rectMargin)
            (dh.tdiv 10 + fontSize + 2 * fontMargin + rectMargin)).Max.X ∧
      (clientRect env.desktop c).Max.Y
        ≤ (imageRect 0 0 (dw.tdiv 10 + rectMargin)
            (dh.tdiv 10 + fontSize + 2 * fontMargin + rectMargin)).Max.Y) := by
  have hsx : (cx - dx).tdiv 10 = (cx - dx) / 10 := tdiv_ten _ (by omega)
  have hsy : (cy - dy).tdiv 10 = (cy - dy) / 10 := tdiv_ten _ (by omega)
  have hsw : cw.tdiv 10 = cw / 10 := tdiv_ten _ hcw
  have hsh : ch.tdiv 10 = ch / 10 := tdiv_ten _ hch
  have hdw10 : dw.tdiv 10 = dw / 10 := tdiv_ten _ hdw
  have hdh10 : dh.tdiv 10 = dh / 10 := tdiv_ten _ hdh
  have hscale : scale (cx - dx) (cy - dy) cw ch
      = ((cx - dx) / 10, (cy - dy) / 10, cw / 10, ch / 10) := by
    simp only [scale, hsx, hsy, hsw, hsh]
  have hrect : clientRect env.desktop c
      = imageRect ((cx - dx) / 10 + rectMargin) ((cy - dy) / 10 + rectMargin)
          ((cx - dx) / 10 + cw / 10) ((cy - dy) / 10 + ch / 10) := by
    simp only [clientRect, hd, hc, hscale]
  refine ⟨hscale, ⟨by omega, by omega, by omega, by omega⟩, ?_, ?_, ?_, ?_⟩
  · obtain ⟨rest, hops, _⟩ := drawClient_ops env mg layout cv c
    rw [hrect] at hops
    exact ⟨_, rest, hops⟩
  · simp only [rectMargin, fontSize, fontMargin, hdw10, hdh10]
    omega
  · simp only [rectMargin, fontSize, fontMargin, hdw10, hdh10]
    omega
  · rw [hrect, imageRect_of_le 0 0 _ _ (by simp only [rectMargin, hdw10]; omega)
      (by simp only [rectMargin, fontSize, fontMargin, hdh10]; omega)]
    simp only [imageRect, rectMargin, fontSize, fontMargin, hdw10, hdh10]
    refine ⟨?_, ?_, ?_, ?_⟩ <;> split_ifs <;> simp only [] <;> omega

/-- The right window of the two-column example: its scaled geometry is
(50, 0, 50, 80) and its rectangle (54,4)-(100,80) lies in the canvas
(0,0)-(104,108). -/
theorem client_rectangle_unclipped_witness :
    scale (500 - 0) (0 - 0) 500 800 = (50, 0, 50, 80) ∧
    clientRect exampleEnv.desktop rightClient = ⟨⟨54, 4⟩, ⟨100, 80⟩⟩ ∧
    (0 : Int) ≤ (clientRect exampleEnv.desktop rightClient).Min.X ∧
    (clientRect exampleEnv.desktop rightClient).Max.X ≤ 104 ∧
    (clientRect exampleEnv.desktop rightClient).Max.Y ≤ 108 := by
  have h := client_rectangle_unclipped exampleEnv exampleManager "two-column"
    ⟨⟨⟨0, 0⟩, ⟨104, 108⟩⟩, BGRA.zero, []⟩ rightClient 0 0 1000 800 500 0 500 800 rfl rfl
    (by decide) (by decide) (by decide) (by decide) (by decide) (by decide) (by decide)
    (by decide)
  obtain ⟨h1, _, _, _, _, h6⟩ := h
  refine ⟨by rw [h1]; decide, by decide, ?_, ?_, ?_⟩
  · exact h6.1
  · exact h6.2.2.1
  · exact h6.2.2.2

/-! ## The default rectangle -/

/-- C6, as the code has it: for every desktop and layout name, when the
selected client set is empty `drawClients` draws exactly one rectangle and no
icon; the rectangle is filled with the colour named gui_client_slave and has
the corners (x+rectMargin, y+rectMargin) and (x+width, y+height) of
(x, y, width, height) = scale(0, 0, dw, dh), that is (4, 4) and
(dw/10, dh/10): the scaled desktop less the margin at its left and top. -/
theorem drawClients_empty (env : Env) (cv : Canvas) (mg : Manager) (layout : String)
    (dx dy dw dh : Int) (hd : env.desktop = (dx, dy, dw, dh))
    (hempty : selectClients mg layout = []) :
    (drawClients env cv mg layout).1.ops
      = cv.ops ++ [DrawOp.image
          (imageRect ((scale 0 0 dw dh).1 + rectMargin) ((scale 0 0 dw dh).2.1 + rectMargin)
            ((scale 0 0 dw dh).1 + (scale 0 0 dw dh).2.2.1)
            ((scale 0 0 dw dh).2.1 + (scale 0 0 dw dh).2.2.2))
          (Source.uniform (bgra env.cfg "gui_client_slave").1)
          (bgra env.cfg "gui_client_slave").1] ∧
    imageRect ((scale 0 0 dw dh).1 + rectMargin) ((scale 0 0 dw dh).2.1 + rectMargin)
        ((scale 0 0 dw dh).1 + (scale 0 0 dw dh).2.2.1)
        ((scale 0 0 dw dh).2.1 + (scale 0 0 dw dh).2.2.2)
      = imageRect 4 4 (dw.tdiv 10) (dh.tdiv 10) ∧
    iconOps ((drawClients env cv mg layout).1.ops.drop cv.ops.length) = [] ∧
    (uniformRects ((drawClients env cv mg layout).1.ops.drop cv.ops.length)).length = 1 := by
  have hops : (drawClients env cv mg layout).1.ops
      = cv.ops ++ [DrawOp.image
          (imageRect ((scale 0 0 dw dh).1 + rectMargin) ((scale 0 0 dw dh).2.1 + rectMargin)
            ((scale 0 0 dw dh).1 + (scale 0 0 dw dh).2.2.1)
            ((scale 0 0 dw dh).2.1 + (scale 0 0 dw dh).2.2.2))
          (Source.uniform (bgra env.cfg "gui_client_slave").1)
          (bgra env.cfg "gui_client_slave").1] := by
    simp only [drawClients, hempty, drawDefault, hd, drawImage]
    rfl
  refine ⟨hops, ?_, ?_, ?_⟩
  · simp [scale, rectMargin]
  · rw [hops, List.drop_left]
    rfl
  · rw [hops, List.drop_left]
    rfl

/-- A manager without windows on the example desktop: the one draw is the
rectangle (4,4)-(100,80) in the slave colour. -/
theorem drawClients_empty_witness :
    selectClients emptyManager "two-column" = [] ∧
    (drawClients exampleEnv ⟨⟨⟨0, 0⟩, ⟨104, 108⟩⟩, BGRA.zero, []⟩ emptyManager "two-column").1.ops
      = [DrawOp.image ⟨⟨4, 4⟩, ⟨100, 80⟩⟩ (Source.uniform { R := 0, G := 0, B := 255, A := 128 })
          { R := 0, G := 0, B := 255, A := 128 }] := by
  have h := drawClients_empty exampleEnv ⟨⟨⟨0, 0⟩, ⟨104, 108⟩⟩, BGRA.zero, []⟩ emptyManager
    "two-column" 0 0 1000 800 rfl (by decide)
  refine ⟨by decide, ?_⟩
  rw [h.1]
  decide

/-- C6 as stated fails: on the desktop of 1000 by 800 without windows the
rectangle drawn is (4,4)-(100,80), which is not the scaled desktop rectangle
scale(0, 0, 1000, 800), that is (0,0)-(100,80). -/
theorem drawClients_empty_not_full_desktop :
    selectClients emptyManager "two-column" = [] ∧
    scale 0 0 1000 800 = (0, 0, 100, 80) ∧
    uniformRects
        (drawClients exampleEnv ⟨⟨⟨0, 0⟩, ⟨104, 108⟩⟩, BGRA.zero, []⟩ emptyManager
          "two-column").1.ops
      = [(⟨⟨4, 4⟩, ⟨100, 80⟩⟩, { R := 0, G := 0, B := 255, A := 128 })] ∧
    ¬ (∃ color : BGRA,
        uniformRects
            (drawClients exampleEnv ⟨⟨⟨0, 0⟩, ⟨104, 108⟩⟩, BGRA.zero, []⟩ emptyManager
              "two-column").1.ops
          = [(imageRect (scale 0 0 1000 800).1 (scale 0 0 1000 800).2.1
                ((scale 0 0 1000 800).1 + (scale 0 0 1000 800).2.2.1)
                ((scale 0 0 1000 800).2.1 + (scale 0 0 1000 800).2.2.2), color)]) := by
  have hdrawn : uniformRects
        (drawClients exampleEnv ⟨⟨⟨0, 0⟩, ⟨104, 108⟩⟩, BGRA.zero, []⟩ emptyManager
          "two-column").1.ops
      = [(⟨⟨4, 4⟩, ⟨100, 80⟩⟩, { R := 0, G := 0, B := 255, A := 128 })] := by decide
  refine ⟨by decide, by decide, hdrawn, ?_⟩
  rintro ⟨color, h⟩
  rw [hdrawn] at h
  have h2 : (⟨⟨4, 4⟩, ⟨100, 80⟩⟩ : Rectangle)
      = imageRect (scale 0 0 1000 800).1 (scale 0 0 1000 800).2.1
          ((scale 0 0 1000 800).1 + (scale 0 0 1000 800).2.2.1)
          ((scale 0 0 1000 800).2.1 + (scale 0 0 1000 800).2.2.2) := by
    have h3 := List.head_eq_of_cons_eq h
    exact congrArg Prod.fst h3
  revert h2
  decide

/-! ## The selection of the clients -/

/-- The inner selection loop replaces the client set exactly when the client
has a state flag that meets the test. -/
theorem scanStates_eq (mg : Manager) (layout : String) (states : List String)
    (clients : List Client) :
    scanStates mg layout states clients
      = if ∃ state ∈ states, state = "_NET_WM_STATE_FULLSCREEN" ∨ layout = "fullscreen" then
          mg.Visible { Clients := mg.Clients true, Allowed := 1 }
        else clients := by
  induction states with
  | nil => simp [scanStates]
  | cons st rest ih =>
    by_cases h : st = "_NET_WM_STATE_FULLSCREEN" ∨ layout = "fullscreen"
    · have hb : (st == "_NET_WM_STATE_FULLSCREEN" || layout == "fullscreen") = true := by
        simpa using h
      rw [scanStates, if_pos hb, if_pos ⟨st, List.mem_cons_self _ _, h⟩]
    · have hb : ¬ (st == "_NET_WM_STATE_FULLSCREEN" || layout == "fullscreen") = true := by
        simpa using h
      rw [scanStates, if_neg hb, ih]
      by_cases hr : ∃ state ∈ rest, state = "_NET_WM_STATE_FULLSCREEN" ∨ layout = "fullscreen"
      · obtain ⟨s, hs, hs2⟩ := hr
        rw [if_pos ⟨s, hs, hs2⟩, if_pos ⟨s, List.mem_cons_of_mem _ hs, hs2⟩]
      · rw [if_neg hr, if_neg]
        rintro ⟨s, hs, hs2⟩
        rcases List.mem_cons.mp hs with rfl | hs
        · exact h hs2
        · exact hr ⟨s, hs, hs2⟩

/-- The outer selection loop replaces the client set exactly when some client
it passes has a state flag that meets the test. -/
theorem scanClients_eq (mg : Manager) (layout : String) (cs clients : List Client) :
    scanClients mg layout cs clients
      = if ∃ c ∈ cs, ∃ state ∈ c.States,
            state = "_NET_WM_STATE_FULLSCREEN" ∨ layout = "fullscreen" then
          mg.Visible { Clients := mg.Clients true, Allowed := 1 }
        else clients := by
  induction cs generalizing clients with
  | nil => simp [scanClients]
  | cons c cs ih =>
    rw [scanClients, ih, scanStates_eq]
    by_cases hc : ∃ state ∈ c.States, state = "_NET_WM_STATE_FULLSCREEN" ∨ layout = "fullscreen"
    · have hall : ∃ d ∈ c :: cs, ∃ state ∈ d.States,
          state = "_NET_WM_STATE_FULLSCREEN" ∨ layout = "fullscreen" :=
        ⟨c, List.mem_cons_self _ _, hc⟩
      rw [if_pos hall]
      split_ifs <;> rfl
    · by_cases hr : ∃ d ∈ cs, ∃ state ∈ d.States,
          state = "_NET_WM_STATE_FULLSCREEN" ∨ layout = "fullscreen"
      · obtain ⟨d, hd, hd2⟩ := hr
        have hall : ∃ d ∈ c :: cs, ∃ state ∈ d.States,
            state = "_NET_WM_STATE_FULLSCREEN" ∨ layout = "fullscreen" :=
          ⟨d, List.mem_cons_of_mem _ hd, hd2⟩
        rw [if_pos hall, if_pos ⟨d, hd, hd2⟩]
      · have hall : ¬ ∃ d ∈ c :: cs, ∃ state ∈ d.States,
            state = "_NET_WM_STATE_FULLSCREEN" ∨ layout = "fullscreen" := by
          rintro ⟨d, hd, hd2⟩
          rcases List.mem_cons.mp hd with rfl | hd
          · exact hc hd2
          · exact hr ⟨d, hd, hd2⟩
        rw [if_neg hall, if_neg hr, if_neg hc]

/-- The client set `drawClients` draws from: the visible subset capped to one
client when some client of the full list has a state flag that is
"_NET_WM_STATE_FULLSCREEN" or is met while the layout name is "fullscreen",
and the full list otherwise. -/
theorem selectClients_eq (mg : Manager) (layout : String) :
    selectClients mg layout
      = if ∃ c ∈ mg.Clients false, ∃ state ∈ c.States,
            state = "_NET_WM_STATE_FULLSCREEN" ∨ layout = "fullscreen" then
          mg.Visible { Clients := mg.Clients true, Allowed := 1 }
        else mg.Clients false :=
  scanClients_eq mg layout _ _

/-- A client with the fullscreen state flag switches the selection to the
visible subset capped to one client. -/
theorem selectClients_of_fullscreen_flag (mg : Manager) (layout : String) (c : Client)
    (hc : c ∈ mg.Clients false) (hs : "_NET_WM_STATE_FULLSCREEN" ∈ c.States) :
    selectClients mg layout = mg.Visible { Clients := mg.Clients true, Allowed := 1 } := by
  rw [selectClients_eq, if_pos ⟨c, hc, _, hs, Or.inl rfl⟩]

/-- C1 at its failing input: with the layout name "fullscreen" and two windows
without state flags the selection keeps the full list of both windows, while
the visible subset capped to one client is the left window alone, and both
windows are drawn. -/
theorem selectClients_fullscreen_no_flags :
    (∀ c ∈ exampleManager.Clients false, c.States = []) ∧
    selectClients exampleManager "fullscreen" = [leftClient, rightClient] ∧
    exampleManager.Visible { Clients := exampleManager.Clients true, Allowed := 1 }
      = [leftClient] ∧
    selectClients exampleManager "fullscreen"
      ≠ exampleManager.Visible { Clients := exampleManager.Clients true, Allowed := 1 } ∧
    (uniformRects (drawClients exampleEnv ⟨⟨⟨0, 0⟩, ⟨104, 108⟩⟩, BGRA.zero, []⟩ exampleManager
      "fullscreen").1.ops).length = 2 := by
  refine ⟨by decide, by decide, by decide, by decide, by decide⟩

/-! ## The two-column scenario -/

/-- With the overlay switched on, `ShowLayout` allocates one canvas, filled
with the background colour, and schedules one deferred render for it. -/
theorem ShowLayout_enabled (env : Env) (ws : Workspace) (w : World)
    (hon : 0 < env.cfg.TilingGui) :
    ShowLayout env ws w
      = { w with
          deferred := w.deferred ++
            [⟨⟨imageRect 0 0 (env.desktop.2.2.1.tdiv 10 + rectMargin)
                (env.desktop.2.2.2.tdiv 10 + fontSize + 2 * fontMargin + rectMargin),
              (bgra env.cfg "gui_background").1, []⟩, ws.ActiveLayout.manager,
              ws.ActiveLayout.name⟩],
          canvases := w.canvases + 1,
          log := w.log ++ (bgra env.cfg "gui_background").2 } := by
  simp only [ShowLayout, if_neg (not_le.mpr hon), scale]

/-- The label adds no filled rectangle. -/
theorem drawText_uniformRects (env : Env) (cv : Canvas) (txt : String) (color : BGRA)
    (x y : Int) : uniformRects (drawText env cv txt color x y).1.ops = uniformRects cv.ops := by
  unfold drawText
  cases env.parseFont with
  | error e => rfl
  | ok font => simp [uniformRects_append, uniformRects]

/-- The draws of `drawClients` leave the bounds of the canvas as they are. -/
theorem drawLoop_Rect (env : Env) (mg : Manager) (layout : String) (cs : List Client)
    (cv : Canvas) (l : List LogEntry) : (drawLoop env mg layout cs cv l).1.Rect = cv.Rect := by
  induction cs generalizing cv l with
  | nil => rfl
  | cons c cs ih =>
    simp only [drawLoop]
    rw [ih]
    simp only [drawClient, drawImage]
    split_ifs <;> rfl

/-- C3, as the code has it: on the desktop (0,0,1000,800) with the layout
"two-column", a master window at (0,0,500,800) and a slave window at
(500,0,500,800), the canvas of `ShowLayout` is (0,0)-(104,108); the deferred
render draws exactly two rectangles, (4,4)-(50,80) in the master colour and
(54,4)-(100,80) in the slave colour, and then the label "two-column", centred
on x = 52, in the row that starts at y = 84 and ends at the canvas bottom
y = 108. -/
theorem two_column_scenario (cfg : Config) (findIcon : Nat → Int → Int → Bool) (font : Font)
    (w : World) (hon : 0 < cfg.TilingGui) :
    ∃ d : Deferred,
      (ShowLayout ⟨cfg, (0, 0, 1000, 800), findIcon, .ok font⟩ exampleWorkspace w).deferred
        = w.deferred ++ [d] ∧
      d.cv.Rect = ⟨⟨0, 0⟩, ⟨104, 108⟩⟩ ∧
      (render ⟨cfg, (0, 0, 1000, 800), findIcon, .ok font⟩ d).1.Rect = ⟨⟨0, 0⟩, ⟨104, 108⟩⟩ ∧
      uniformRects (render ⟨cfg, (0, 0, 1000, 800), findIcon, .ok font⟩ d).1.ops
        = [(⟨⟨4, 4⟩, ⟨50, 80⟩⟩, (bgra cfg "gui_client_master").1),
           (⟨⟨54, 4⟩, ⟨100, 80⟩⟩, (bgra cfg "gui_client_slave").1)] ∧
      (render ⟨cfg, (0, 0, 1000, 800), findIcon, .ok font⟩ d).1.ops.getLast?
        = some (DrawOp.text (52 - (font.extentsW "two-column").tdiv 2) 84
            (bgra cfg "gui_text").1 "two-column") ∧
      (84 : Int) + (fontSize + 2 * fontMargin) = 108 := by
  have hsel : selectClients exampleManager "two-column" = [leftClient, rightClient] := by decide
  have hrect : imageRect 0 0 ((1000 : Int).tdiv 10 + rectMargin)
      ((800 : Int).tdiv 10 + fontSize + 2 * fontMargin + rectMargin) = ⟨⟨0, 0⟩, ⟨104, 108⟩⟩ := by
    decide
  have hdc : ∀ cv : Canvas,
      drawClients ⟨cfg, (0, 0, 1000, 800), findIcon, .ok font⟩ cv exampleManager "two-column"
        = drawLoop ⟨cfg, (0, 0, 1000, 800), findIcon, .ok font⟩ exampleManager "two-column"
            [leftClient, rightClient] cv [] := by
    intro cv
    simp only [drawClients, hsel]
    rfl
  refine ⟨_, by rw [ShowLayout_enabled _ _ _ hon], hrect, ?_, ?_, ?_, by decide⟩
  · simp only [render, drawText, exampleWorkspace, hdc, drawLoop_Rect, hrect]
  · simp only [render, exampleWorkspace, hdc, drawText_uniformRects, drawLoop_uniformRects]
    have hl : exampleManager.IsMaster leftClient = true := by decide
    have hr : ¬ (exampleManager.IsMaster rightClient = true ∨ "two-column" = "fullscreen") := by
      decide
    simp only [List.map, hl, true_or, if_true, if_neg hr, uniformRects, List.filterMap_nil,
      List.nil_append]
    have h1 : clientRect (0, 0, 1000, 800) leftClient = ⟨⟨4, 4⟩, ⟨50, 80⟩⟩ := by decide
    have h2 : clientRect (0, 0, 1000, 800) rightClient = ⟨⟨54, 4⟩, ⟨100, 80⟩⟩ := by decide
    rw [h1, h2]
  · simp only [render, drawText, exampleWorkspace, hdc, drawLoop_Rect, hrect,
      List.getLast?_append, List.getLast?_singleton]
    have hx : (Rectangle.Dx ⟨⟨0, 0⟩, ⟨104, 108⟩⟩).tdiv 2 = 52 := by decide
    have hy : Rectangle.Dy ⟨⟨0, 0⟩, ⟨104, 108⟩⟩ - fontSize - 2 * fontMargin = 84 := by decide
    rw [hx, hy]
    rfl

/-- The scenario with the example colours, no icons and the example font: the
label of ten characters, 80 wide, starts at x = 12. -/
theorem two_column_scenario_witness :
    0 < exampleConfig.TilingGui ∧
    ∃ d : Deferred,
      (ShowLayout exampleEnv exampleWorkspace World.init).deferred = [d] ∧
      d.cv.Rect = ⟨⟨0, 0⟩, ⟨104, 108⟩⟩ ∧
      uniformRects (render exampleEnv d).1.ops
        = [(⟨⟨4, 4⟩, ⟨50, 80⟩⟩, { R := 255, G := 0, B := 0, A := 255 }),
           (⟨⟨54, 4⟩, ⟨100, 80⟩⟩, { R := 0, G := 0, B := 255, A := 128 })] ∧
      (render exampleEnv d).1.ops.getLast?
        = some (DrawOp.text 12 84 { R := 255, G := 255, B := 255, A := 255 } "two-column") := by
  obtain ⟨d, h1, h2, _, h4, h5, _⟩ :=
    two_column_scenario exampleConfig (fun _ _ _ => false) exampleFont World.init (by decide)
  refine ⟨by decide, d, h1, h2, ?_, ?_⟩
  · have h := h4
    have hm : (bgra exampleConfig "gui_client_master").1 = { R := 255, G := 0, B := 0, A := 255 } := by
      decide
    have hs : (bgra exampleConfig "gui_client_slave").1 = { R := 0, G := 0, B := 255, A := 128 } := by
      decide
    rw [hm, hs] at h
    exact h
  · have h := h5
    have ht : (bgra exampleConfig "gui_text").1 = { R := 255, G := 255, B := 255, A := 255 } := by
      decide
    have hw : (52 : Int) - (exampleFont.extentsW "two-column").tdiv 2 = 12 := by decide
    rw [ht, hw] at h
    exact h

/-- C3 as stated fails: in the scenario the one canvas drawn is 104 by 108
with the rectangles (4,4)-(50,80) and (54,4)-(100,80); it is not 104 by 124,
and its rectangles are not (4,4)-(54,84) and (54,4)-(104,84). -/
theorem two_column_scenario_as_stated_fails :
    rendered exampleEnv (ShowLayout exampleEnv exampleWorkspace World.init)
      = [{ Rect := ⟨⟨0, 0⟩, ⟨104, 108⟩⟩,
           fill := { R := 30, G := 30, B := 30, A := 255 },
           ops := [DrawOp.image ⟨⟨4, 4⟩, ⟨50, 80⟩⟩
                     (Source.uniform { R := 255, G := 0, B := 0, A := 255 })
                     { R := 255, G := 0, B := 0, A := 255 },
                   DrawOp.image ⟨⟨54, 4⟩, ⟨100, 80⟩⟩
                     (Source.uniform { R := 0, G := 0, B := 255, A := 128 })
                     { R := 0, G := 0, B := 255, A := 128 },
                   DrawOp.text 12 84 { R := 255, G := 255, B := 255, A := 255 }
                     "two-column"] }] ∧
    ¬ (∃ cv ∈ rendered exampleEnv (ShowLayout exampleEnv exampleWorkspace World.init),
        cv.Rect.Dx = 104 ∧ cv.Rect.Dy = 124) ∧
    ¬ (∃ cv ∈ rendered exampleEnv (ShowLayout exampleEnv exampleWorkspace World.init),
        uniformRects cv.ops
          = [(⟨⟨4, 4⟩, ⟨54, 84⟩⟩, { R := 255, G := 0, B := 0, A := 255 }),
             (⟨⟨54, 4⟩, ⟨104, 84⟩⟩, { R := 0, G := 0, B := 255, A := 128 })]) ∧
    ¬ (∃ cv ∈ rendered exampleEnv (ShowLayout exampleEnv exampleWorkspace World.init),
        cv.Rect.Max.Y = 124) := by
  have h : rendered exampleEnv (ShowLayout exampleEnv exampleWorkspace World.init)
      = [{ Rect := ⟨⟨0, 0⟩, ⟨104, 108⟩⟩,
           fill := { R := 30, G := 30, B := 30, A := 255 },
           ops := [DrawOp.image ⟨⟨4, 4⟩, ⟨50, 80⟩⟩
                     (Source.uniform { R := 255, G := 0, B := 0, A := 255 })
                     { R := 255, G := 0, B := 0, A := 255 },
                   DrawOp.image ⟨⟨54, 4⟩, ⟨100, 80⟩⟩
                     (Source.uniform { R := 0, G := 0, B := 255, A := 128 })
                     { R := 0, G := 0, B := 255, A := 128 },
                   DrawOp.text 12 84 { R := 255, G := 255, B := 255, A := 255 }
                     "two-column"] }] := by
    decide
  rw [h]
  refine ⟨rfl, ?_, ?_, ?_⟩ <;> decide

/-! ## The lifecycle of the overlay window -/

/-- Destroying a window that is not mapped changes nothing. -/
theorem destroy_of_not_mem (win : Nat) (mapped : List Nat) (h : win ∉ mapped) :
    destroy win mapped = mapped := by
  unfold destroy
  rw [List.filter_eq_self]
  intro v hv
  have hne : v ≠ win := fun e => h (e ▸ hv)
  simpa using hne

/-- A mapped window other than the destroyed one stays mapped. -/
theorem mem_destroy (win v : Nat) (mapped : List Nat) :
    v ∈ destroy win mapped ↔ v ∈ mapped ∧ v ≠ win := by
  simp [destroy]

/-- After a successful `showGraphics` in a state that meets the invariant the
new window is the only mapped one. -/
theorem showGraphics_mapped (s : World) (hs : Singleton s) (img : Canvas) (duration : Int) :
    (showGraphics img duration (.ok ()) s).1.mapped = [s.nextId] ∧
    (showGraphics img duration (.ok ()) s).1.gui = some s.nextId ∧
    (showGraphics img duration (.ok ()) s).1.nextId = s.nextId + 1 ∧
    (showGraphics img duration (.ok ()) s).2 = some s.nextId := by
  refine ⟨?_, rfl, rfl, rfl⟩
  cases hg : s.gui with
  | none =>
    have hm : s.mapped = [] := by
      cases hmp : s.mapped with
      | nil => rfl
      | cons v vs =>
        have := hs.mapped_gui v (by rw [hmp]; exact List.mem_cons_self _ _)
        rw [hg] at this
        exact absurd this (by simp)
    simp only [showGraphics, hg, hm]
    rfl
  | some g =>
    have hlast := hs.gui_last g hg
    have hall : ∀ v ∈ s.mapped, v = g := by
      intro v hv
      have := hs.mapped_gui v hv
      rw [hg] at this
      exact (Option.some.inj this).symm
    simp only [showGraphics, hg, destroy, List.filter_append]
    have h1 : s.mapped.filter (fun v => v != g) = [] := by
      rw [List.filter_eq_nil_iff]
      intro v hv
      simp [hall v hv]
    have h2 : [s.nextId].filter (fun v => v != g) = [s.nextId] := by
      rw [List.filter_eq_self]
      intro v hv
      have hv2 : v = s.nextId := List.mem_singleton.mp hv
      have hne : v ≠ g := by omega
      simpa using hne
    rw [h1, h2]
    rfl

/-- Every step keeps the invariant. -/
theorem step_Singleton (s : World) (hs : Singleton s) (st : Step) : Singleton (step s st) := by
  cases st with
  | showWindow img duration gen =>
    cases gen with
    | error e => exact ⟨hs.mapped_gui, hs.at_most_one, hs.gui_last, hs.gui_nil⟩
    | ok u =>
      obtain ⟨hm, hg, hn, _⟩ := showGraphics_mapped s hs img duration
      refine ⟨?_, ?_, ?_, ?_⟩
      · intro v hv
        simp only [step] at hv ⊢
        rw [hm] at hv
        rw [hg, List.mem_singleton.mp hv]
      · simp only [step]
        rw [hm]
        exact Nat.le_refl 1
      · intro g hgg
        simp only [step] at hgg ⊢
        rw [hg] at hgg
        rw [hn, ← Option.some.inj hgg]
      · intro hnone
        simp only [step] at hnone
        rw [hg] at hnone
        exact absurd hnone (by simp)
  | timer win =>
    by_cases hw : win ∈ s.timers
    · simp only [step, timerFire, if_pos hw]
      refine ⟨?_, ?_, hs.gui_last, hs.gui_nil⟩
      · intro v hv
        exact hs.mapped_gui v ((mem_destroy win v s.mapped).mp hv).1
      · exact Nat.le_trans (List.length_filter_le _ _) hs.at_most_one
    · simp only [step, timerFire, if_neg hw]
      exact hs

/-- Every state reached from the starting state meets the invariant. -/
theorem run_Singleton (s : World) (hs : Singleton s) (steps : List Step) :
    Singleton (run s steps) := by
  induction steps generalizing s with
  | nil => exact hs
  | cons st rest ih => exact ih (step s st) (step_Singleton s hs st)

/-- The starting state meets the invariant. -/
theorem init_Singleton : Singleton World.init :=
  ⟨fun _ hv => absurd hv (List.not_mem_nil _), Nat.zero_le 1, fun _ h => absurd h (by simp [World.init]),
    fun _ => rfl⟩

/-- Timers of other windows leave a mapped window and `gui` as they are. -/
theorem run_timers_keep (s : World) (n : Nat) (fired : List Nat) (hne : ∀ v ∈ fired, v ≠ n)
    (hm : s.mapped = [n]) :
    (run s (fired.map Step.timer)).mapped = [n] ∧ (run s (fired.map Step.timer)).gui = s.gui := by
  induction fired generalizing s with
  | nil => exact ⟨hm, rfl⟩
  | cons v vs ih =>
    have hv : v ≠ n := hne v (List.mem_cons_self _ _)
    have hstep : (step s (Step.timer v)).mapped = [n] ∧ (step s (Step.timer v)).gui = s.gui := by
      by_cases hw : v ∈ s.timers
      · simp only [step, timerFire, if_pos hw, and_true]
        rw [hm, destroy_of_not_mem]
        simpa using hv
      · simp only [step, timerFire, if_neg hw, and_true]
        exact hm
    have := ih (step s (Step.timer v)) (fun u hu => hne u (List.mem_cons_of_mem _ hu)) hstep.1
    simp only [List.map, run, List.foldl] at this ⊢
    exact ⟨this.1, this.2.trans hstep.2⟩

/-- C7: in every state reached from the start, with a previous overlay live
or not, a successful `showGraphics` leaves exactly one overlay window live,
the newly created one, with `gui` referring to it and every window that was
live before destroyed; and when afterwards auto-dismiss timers of other,
already superseded windows fire, the new window stays live and `gui` still
refers to it. -/
theorem showGraphics_replaces (steps : List Step) (img : Canvas) (duration : Int) :
    (showGraphics img duration (.ok ()) (run World.init steps)).2
      = some (run World.init steps).nextId ∧
    (showGraphics img duration (.ok ()) (run World.init steps)).1.mapped
      = [(run World.init steps).nextId] ∧
    (showGraphics img duration (.ok ()) (run World.init steps)).1.gui
      = some (run World.init steps).nextId ∧
    (∀ old ∈ (run World.init steps).mapped,
      old ≠ (run World.init steps).nextId ∧
      old ∉ (showGraphics img duration (.ok ()) (run World.init steps)).1.mapped) ∧
    (∀ fired : List Nat, (∀ v ∈ fired, v ≠ (run World.init steps).nextId) →
      (run (showGraphics img duration (.ok ()) (run World.init steps)).1
          (fired.map Step.timer)).mapped = [(run World.init steps).nextId] ∧
      (run (showGraphics img duration (.ok ()) (run World.init steps)).1
          (fired.map Step.timer)).gui = some (run World.init steps).nextId) := by
  have hs : Singleton (run World.init steps) := run_Singleton _ init_Singleton steps
  obtain ⟨hm, hg, _, hr⟩ := showGraphics_mapped _ hs img duration
  have hold : ∀ old ∈ (run World.init steps).mapped, old ≠ (run World.init steps).nextId := by
    intro old ho
    have h1 := hs.mapped_gui old ho
    have h2 := hs.gui_last old h1
    omega
  refine ⟨hr, hm, hg, ?_, ?_⟩
  · intro old ho
    refine ⟨hold old ho, ?_⟩
    rw [hm, List.mem_singleton]
    exact hold old ho
  · intro fired hf
    have h := run_timers_keep _ _ fired hf hm
    exact ⟨h.1, h.2.trans hg⟩

/-- Two overlays in a row: window 0 is live when window 1 is shown; afterwards
window 1 alone is live, and it stays so when the timer of window 0 fires. -/
theorem showGraphics_replaces_witness :
    (run World.init [Step.showWindow exampleCanvas 1000 (.ok ())]).mapped = [0] ∧
    (showGraphics exampleCanvas 1000 (.ok ())
      (run World.init [Step.showWindow exampleCanvas 1000 (.ok ())])).1.mapped = [1] ∧
    (run (showGraphics exampleCanvas 1000 (.ok ())
      (run World.init [Step.showWindow exampleCanvas 1000 (.ok ())])).1
        [Step.timer 0]).mapped = [1] ∧
    (run (showGraphics exampleCanvas 1000 (.ok ())
      (run World.init [Step.showWindow exampleCanvas 1000 (.ok ())])).1
        [Step.timer 0]).gui = some 1 := by
  have h := showGraphics_replaces [Step.showWindow exampleCanvas 1000 (.ok ())] exampleCanvas
    1000
  obtain ⟨_, h2, _, _, h5⟩ := h
  have h6 := h5 [0] (by decide)
  exact ⟨by decide, h2, h6.1, h6.2⟩

/-- C8, as the code has it: in every state reached from the starting state
through `showGraphics` calls, successful or failing, and timer firings, a
mapped overlay window is the one `gui` refers to and at most one is mapped;
`gui` is nil only as long as no overlay was shown, and otherwise refers to
the overlay window created last, which is either the one mapped window or
already destroyed. -/
theorem gui_refers_to_last_window (steps : List Step) :
    (∀ v ∈ (run World.init steps).mapped, (run World.init steps).gui = some v) ∧
    (run World.init steps).mapped.length ≤ 1 ∧
    ((run World.init steps).gui = none →
      (run World.init steps).mapped = [] ∧ (run World.init steps).nextId = 0) ∧
    (∀ g, (run World.init steps).gui = some g →
      g + 1 = (run World.init steps).nextId ∧
      ((run World.init steps).mapped = [g] ∨ (run World.init steps).mapped = [])) := by
  have hs : Singleton (run World.init steps) := run_Singleton _ init_Singleton steps
  have hlist : ∀ g, (∀ v ∈ (run World.init steps).mapped, v = g) →
      (run World.init steps).mapped = [g] ∨ (run World.init steps).mapped = [] := by
    intro g hall
    have hlen := hs.at_most_one
    cases hm : (run World.init steps).mapped with
    | nil => exact Or.inr rfl
    | cons a rest =>
      rw [hm] at hlen hall
      cases rest with
      | nil => exact Or.inl (by rw [hall a (List.mem_cons_self _ _)])
      | cons b rest2 => simp at hlen
  refine ⟨hs.mapped_gui, hs.at_most_one, ?_, ?_⟩
  · intro hnone
    refine ⟨?_, hs.gui_nil hnone⟩
    cases hm : (run World.init steps).mapped with
    | nil => rfl
    | cons a rest =>
      have := hs.mapped_gui a (by rw [hm]; exact List.mem_cons_self _ _)
      rw [hnone] at this
      exact absurd this (by simp)
  · intro g hg
    refine ⟨hs.gui_last g hg, hlist g ?_⟩
    intro v hv
    have := hs.mapped_gui v hv
    rw [hg] at this
    exact (Option.some.inj this).symm

/-- C8 as stated fails: after one overlay is shown and its auto-dismiss timer
has fired, `gui` still refers to window 0, which is no longer mapped. -/
theorem gui_refers_to_destroyed_window :
    (run World.init [Step.showWindow exampleCanvas 1000 (.ok ()), Step.timer 0]).gui = some 0 ∧
    (run World.init [Step.showWindow exampleCanvas 1000 (.ok ()), Step.timer 0]).mapped = [] ∧
    ¬ ((run World.init [Step.showWindow exampleCanvas 1000 (.ok ()), Step.timer 0]).gui = none ∨
      ∃ g, (run World.init [Step.showWindow exampleCanvas 1000 (.ok ()), Step.timer 0]).gui
          = some g ∧
        g ∈ (run World.init [Step.showWindow exampleCanvas 1000 (.ok ()), Step.timer 0]).mapped) := by
  have hg : (run World.init [Step.showWindow exampleCanvas 1000 (.ok ()), Step.timer 0]).gui
      = some 0 := by decide
  have hm : (run World.init [Step.showWindow exampleCanvas 1000 (.ok ()), Step.timer 0]).mapped
      = [] := by decide
  refine ⟨hg, hm, ?_⟩
  rw [hg, hm]
  simp

end Cortile
